import Mathlib

/-!
Shallow embedding of the expense-tracker service in `src/main.py`.

The store is the SQLite table `expenses(id, date, amount, category,
subcategory, note)`; we model it as a list of rows together with the next
`AUTOINCREMENT` identifier.  `REAL` amounts are modelled as rationals, `TEXT`
columns as `String`, and SQLite's lexical (`BINARY`) comparison of `TEXT`
values as the lexicographic order on the character data.  Each handler opens
its own connection, so a handler is a function of the store; handlers that can
hit a database exception additionally take the outcome of the underlying
database call (`none` = the call succeeded, `some e` = it raised an exception
whose text is `e`), mirroring the `try/except` blocks in the source.
-/

namespace ExpenseTracker

/-- Lexical order on stored `TEXT` values, as used by SQLite's `BINARY`
collation for `<`, `<=`, `>=` and `BETWEEN`: lexicographic comparison of the
character sequences. -/
def textLt (a b : String) : Prop :=
  List.Lex (· < ·) a.data b.data

instance : DecidableRel textLt := fun a b => by
  unfold textLt; infer_instance

/-- Non-strict lexical order on stored `TEXT` values (`a <= b` iff not
`b < a`). -/
def textLe (a b : String) : Prop :=
  ¬ textLt b a

instance : DecidableRel textLe := fun a b => by
  unfold textLe; infer_instance

/-- Row of the `expenses` table (`src/main.py`, `CREATE TABLE` in `init_db`). -/
structure Expense where
  id : Nat
  date : String
  amount : ℚ
  category : String
  subcategory : String
  note : String
deriving DecidableEq

/-- The database: the rows of `expenses` plus the next `AUTOINCREMENT` id.
SQLite's `INTEGER PRIMARY KEY AUTOINCREMENT` hands out strictly increasing
identifiers and never reuses one, even after deletion. -/
structure Store where
  rows : List Expense
  nextId : Nat
deriving DecidableEq

/-- Python truthiness of an optional string argument: `None` and `""` are
falsy, every other string is truthy (the source guards filters with
`if start_date and end_date: ... elif start_date: ...` etc.). -/
def truthy : Option String → Bool
  | none => false
  | some s => !s.isEmpty

/-- The disposable probe row inserted by `init_db` to test write access
(`INSERT OR IGNORE INTO expenses(date, amount, category) VALUES
('2000-01-01', 0, 'test')`); `subcategory` and `note` take their `DEFAULT ''`. -/
def probeRow (n : Nat) : Expense :=
  ⟨n, "2000-01-01", 0, "test", "", ""⟩

/-- Store initializer `init_db` on the success path: `CREATE TABLE IF NOT
EXISTS` (keeps existing rows; a missing database starts empty with next id 1),
then the write probe `INSERT ... ('2000-01-01', 0, 'test')` followed by
`DELETE FROM expenses WHERE category = 'test'`.  The probe insert consumes an
identifier; the delete removes every row whose category is `'test'`. -/
def init_db (db : Option Store) : Store :=
  let base := db.getD ⟨[], 1⟩
  let probed : Store := ⟨base.rows ++ [probeRow base.nextId], base.nextId + 1⟩
  ⟨probed.rows.filter (fun r => r.category != "test"), probed.nextId⟩

/-- Result dictionary returned by `add_expense`: either
`{"status": "success", "id": ..., "message": ...}` or
`{"status": "error", "message": ...}`. -/
inductive AddResponse
  | success (id : Nat) (message : String)
  | error (message : String)
deriving DecidableEq

/-- The `status` field of the dictionary returned by `add_expense`. -/
def AddResponse.status : AddResponse → String
  | .success _ _ => "success"
  | .error _ => "error"

/-- Python's `str.lower()` on the failure text: lower-case each character. -/
def lowerData (e : String) : List Char :=
  e.data.map Char.toLower

/-- Python's substring test `needle in hay` on character data: some tail of
`hay` starts with `needle`. -/
def subCheck (needle : List Char) : List Char → Bool
  | [] => needle.isEmpty
  | c :: rest => needle.isPrefixOf (c :: rest) || subCheck needle rest

/-- The check `"readonly" in str(e).lower()` from `add_expense`'s exception
handler. -/
def readonlyCheck (e : String) : Bool :=
  subCheck "readonly".data (lowerData e)

/-- Handler `add_expense(amount, category, subcategory="", note="", date=None)`.
`today` is `str(date_class.today())`, the current calendar date in ISO format
at call time; `dbErr` is the outcome of the `INSERT`/`commit` (`some e` means
the database call raised an exception with text `e`, in which case nothing was
written).  On success the row is appended with `lastrowid = nextId`. -/
def add_expense (s : Store) (amount : ℚ) (category : String)
    (subcategory : String) (note : String) (date : Option String)
    (today : String) (dbErr : Option String) : Store × AddResponse :=
  let date := match date with
    | none => today
    | some d => d
  match dbErr with
  | some e =>
    if readonlyCheck e then
      (s, .error "Database is in read-only mode. Check file permissions.")
    else
      (s, .error ("Database error: " ++ e))
  | none =>
    (⟨s.rows ++ [⟨s.nextId, date, amount, category, subcategory, note⟩],
        s.nextId + 1⟩,
     .success s.nextId "Expense added successfully")

/-- Output order of `ORDER BY date DESC, id DESC`: `a` precedes `b` when `a`'s
date is lexically larger, or the dates are equal and `a`'s id is at least
`b`'s. -/
def RowOrd : Expense → Expense → Prop :=
  fun a b => textLt b.date a.date ∨ (a.date = b.date ∧ b.id ≤ a.id)

instance : DecidableRel RowOrd := fun a b => by
  unfold RowOrd; infer_instance

/-- Query body of `list_expenses(start_date=None, end_date=None)`: the four
`if start_date and end_date / elif start_date / elif end_date / else` branches
build `WHERE date BETWEEN ? AND ?`, `WHERE date >= ?`, `WHERE date <= ?`, or
no filter, each with `ORDER BY date DESC, id DESC`. -/
def list_expenses (s : Store) (sd ed : Option String) : List Expense :=
  if truthy sd && truthy ed then
    List.insertionSort RowOrd
      (s.rows.filter (fun r =>
        decide (textLe (sd.getD "") r.date) && decide (textLe r.date (ed.getD ""))))
  else if truthy sd then
    List.insertionSort RowOrd
      (s.rows.filter (fun r => decide (textLe (sd.getD "") r.date)))
  else if truthy ed then
    List.insertionSort RowOrd
      (s.rows.filter (fun r => decide (textLe r.date (ed.getD ""))))
  else
    List.insertionSort RowOrd s.rows

/-- Result of `list_expenses` as seen by the caller: a list of row
dictionaries on success, or `{"status": "error", "message": ...}` when the
query raised. -/
inductive ListResponse
  | rows (items : List Expense)
  | error (message : String)
deriving DecidableEq

/-- Handler `list_expenses` including its `try/except`: an exception `e`
anywhere in the body is returned as
`{"status": "error", "message": "Error listing expenses: " + e}`.  The
`SELECT` never modifies the store, so the store is returned unchanged. -/
def list_expensesApi (s : Store) (sd ed : Option String)
    (dbErr : Option String) : Store × ListResponse :=
  match dbErr with
  | some e => (s, .error ("Error listing expenses: " ++ e))
  | none => (s, .rows (list_expenses s sd ed))

/-- Row of the `summarize` result: `SELECT category, SUM(amount) AS
total_amount, COUNT(*) as count ... GROUP BY category`. -/
structure SummaryRow where
  category : String
  total_amount : ℚ
  count : Nat
deriving DecidableEq

/-- Output order of `ORDER BY total_amount DESC`. -/
def SumOrd : SummaryRow → SummaryRow → Prop :=
  fun a b => b.total_amount ≤ a.total_amount

instance : DecidableRel SumOrd := fun a b => by
  unfold SumOrd; infer_instance

/-- The `WHERE` clause built by `summarize`: `1=1`, then the same
date-truthiness branches as `list_expenses` (`AND date BETWEEN ? AND ?` /
`AND date >= ?` / `AND date <= ?`), then `AND category = ?` when `category`
is truthy. -/
def summarizeFilter (sd ed cat : Option String) (r : Expense) : Bool :=
  (if truthy sd && truthy ed then
    decide (textLe (sd.getD "") r.date) && decide (textLe r.date (ed.getD ""))
  else if truthy sd then
    decide (textLe (sd.getD "") r.date)
  else if truthy ed then
    decide (textLe r.date (ed.getD ""))
  else
    true)
  && (if truthy cat then r.category == cat.getD "" else true)

/-- Grouping step of `summarize`'s query on the rows matched by the `WHERE`
clause: `GROUP BY category` yields one group per distinct category among the
matched rows, with `SUM(amount)` and `COUNT(*)`, and `ORDER BY total_amount
DESC` orders the groups. -/
def summaryRows (matched : List Expense) : List SummaryRow :=
  List.insertionSort SumOrd
    (((matched.map (·.category)).dedup).map (fun c =>
      ⟨c, ((matched.filter (fun r => r.category == c)).map (·.amount)).sum,
          (matched.filter (fun r => r.category == c)).length⟩))

/-- Query body of `summarize(start_date=None, end_date=None, category=None)`:
filter rows by `summarizeFilter`, then group and order them. -/
def summarize (s : Store) (sd ed cat : Option String) : List SummaryRow :=
  summaryRows (s.rows.filter (summarizeFilter sd ed cat))

/-- Result of `summarize` as seen by the caller. -/
inductive SummarizeResponse
  | rows (items : List SummaryRow)
  | error (message : String)
deriving DecidableEq

/-- Handler `summarize` including its `try/except`: an exception `e` becomes
`{"status": "error", "message": "Error summarizing expenses: " + e}`; the
store is never modified. -/
def summarizeApi (s : Store) (sd ed cat : Option String)
    (dbErr : Option String) : Store × SummarizeResponse :=
  match dbErr with
  | some e => (s, .error ("Error summarizing expenses: " ++ e))
  | none => (s, .rows (summarize s sd ed cat))

/-- Outcome of `open(CATEGORIES_PATH).read()` in the `categories` resource. -/
inductive FileRead
  | ok (content : String)
  | notFound
  | otherError (msg : String)

/-- The ten hardcoded labels of `default_categories["categories"]`. -/
def defaultCategoryLabels : List String :=
  ["Food & Dining", "Transportation", "Shopping", "Entertainment",
   "Bills & Utilities", "Healthcare", "Travel", "Education", "Business",
   "Other"]

/-- Join a list of strings with a separator (used to render the array
elements). -/
def joinWith (sep : String) : List String → String
  | [] => ""
  | [x] => x
  | x :: y :: rest => x ++ sep ++ joinWith sep (y :: rest)

/-- Rendering of `json.dumps({"categories": labels}, indent=2)`: the object
brace, the key line at indent 2, one array element per line at indent 4
separated by commas, the closing bracket and brace.  None of the ten labels
needs JSON escaping. -/
def renderCategoriesJson (labels : List String) : String :=
  "\x7b\n  \"categories\": [\n"
    ++ joinWith ",\n" (labels.map (fun l => "    \"" ++ l ++ "\""))
    ++ "\n  ]\n\x7d"

/-- Resource handler `categories()`: return the file content verbatim when the
file exists; synthesize the default document when it is absent
(`FileNotFoundError`); turn any other exception `e` into the inline f-string
`'\x7b"error": "Could not load categories: ..."\x7d'` instead of raising. -/
def categories : FileRead → String
  | .ok content => content
  | .notFound => renderCategoriesJson defaultCategoryLabels
  | .otherError e =>
    "\x7b\"error\": \"Could not load categories: " ++ e ++ "\"\x7d"

/-- One call's worth of arguments to `add_expense` (with `today` the calendar
date current at that call). -/
structure AddInput where
  amount : ℚ
  category : String
  subcategory : String
  note : String
  date : Option String
  today : String

/-- Fold a sequence of successful `add_expense` calls over the store. -/
def runAdds (s : Store) : List AddInput → Store
  | [] => s
  | i :: rest =>
    runAdds (add_expense s i.amount i.category i.subcategory i.note i.date
      i.today none).1 rest

/-- Date filter of the specification, read with "supplied" meaning "passed as
a value" (`none` = absent): `date ≥ start_date` when `start_date` is supplied,
`date ≤ end_date` when `end_date` is supplied, both when both are. -/
def specListFilter (sd ed : Option String) (r : Expense) : Bool :=
  (match sd with
    | some d => decide (textLe d r.date)
    | none => true)
  && (match ed with
    | some d => decide (textLe r.date d)
    | none => true)

/-- Effective date filter actually applied by `list_expenses` and `summarize`:
a bound participates only when it is truthy (present and nonempty). -/
def effDateCheck (sd ed : Option String) (r : Expense) : Bool :=
  (!truthy sd || decide (textLe (sd.getD "") r.date))
    && (!truthy ed || decide (textLe r.date (ed.getD "")))

/-! Basic facts about the lexical `TEXT` order and the two output orders. -/

theorem textLt_trans {a b c : String} (h1 : textLt a b) (h2 : textLt b c) :
    textLt a c := by
  unfold textLt at h1 h2 ⊢
  exact Trans.trans h1 h2

theorem textLt_trichotomy (a b : String) : textLt a b ∨ a = b ∨ textLt b a := by
  have htri : List.Lex (· < ·) a.data b.data ∨ a.data = b.data
      ∨ List.Lex (· < ·) b.data a.data := trichotomous a.data b.data
  rcases htri with h | h | h
  · exact Or.inl h
  · exact Or.inr (Or.inl (String.ext h))
  · exact Or.inr (Or.inr h)

theorem rowOrd_trans (a b c : Expense) (h1 : RowOrd a b) (h2 : RowOrd b c) :
    RowOrd a c := by
  rcases h1 with h1 | ⟨e1, i1⟩ <;> rcases h2 with h2 | ⟨e2, i2⟩
  · exact Or.inl (textLt_trans h2 h1)
  · exact Or.inl (e2 ▸ h1)
  · exact Or.inl (by rw [e1]; exact h2)
  · exact Or.inr ⟨e1.trans e2, le_trans i2 i1⟩

theorem rowOrd_total (a b : Expense) : RowOrd a b ∨ RowOrd b a := by
  rcases textLt_trichotomy a.date b.date with h | h | h
  · exact Or.inr (Or.inl h)
  · rcases le_total a.id b.id with hi | hi
    · exact Or.inr (Or.inr ⟨h.symm, hi⟩)
    · exact Or.inl (Or.inr ⟨h, hi⟩)
  · exact Or.inl (Or.inl h)

instance : IsTrans Expense RowOrd := ⟨rowOrd_trans⟩

instance : IsTotal Expense RowOrd := ⟨rowOrd_total⟩

theorem sumOrd_trans (a b c : SummaryRow) (h1 : SumOrd a b) (h2 : SumOrd b c) :
    SumOrd a c :=
  le_trans h2 h1

theorem sumOrd_total (a b : SummaryRow) : SumOrd a b ∨ SumOrd b a :=
  le_total _ _

instance : IsTrans SummaryRow SumOrd := ⟨sumOrd_trans⟩

instance : IsTotal SummaryRow SumOrd := ⟨sumOrd_total⟩

/-! Facts about truthiness of the optional filter arguments. -/

theorem truthy_some_of_ne {s : String} (h : s ≠ "") : truthy (some s) = true := by
  have hs : s.isEmpty = false := by
    rcases hb : s.isEmpty with _ | _
    · rfl
    · exact absurd ((String.isEmpty_iff _).mp (by rw [hb])) h
  simp [truthy, hs]

/-- The four query branches of `list_expenses` compute the sort of the rows
passing the effective (truthiness-based) date filter. -/
theorem list_expenses_eq (s : Store) (sd ed : Option String) :
    list_expenses s sd ed
      = List.insertionSort RowOrd (s.rows.filter (effDateCheck sd ed)) := by
  unfold list_expenses effDateCheck
  cases hsd : truthy sd <;> cases hed : truthy ed <;> simp [List.filter_true]

/-- The `WHERE` clause of `summarize` is the effective date filter plus the
truthiness-guarded category filter. -/
theorem summarizeFilter_eq (sd ed cat : Option String) (r : Expense) :
    summarizeFilter sd ed cat r
      = (effDateCheck sd ed r
          && (if truthy cat then r.category == cat.getD "" else true)) := by
  unfold summarizeFilter effDateCheck
  cases hsd : truthy sd <;> cases hed : truthy ed <;> simp

theorem truthy_none_eq : truthy none = false := rfl

theorem truthy_some_empty : truthy (some "") = false := rfl

/-! Facts about the grouping step of `summarize`. -/

theorem summaryRows_perm (matched : List Expense) :
    (summaryRows matched).Perm
      (((matched.map (·.category)).dedup).map (fun c =>
        ⟨c, ((matched.filter (fun r => r.category == c)).map (·.amount)).sum,
            (matched.filter (fun r => r.category == c)).length⟩)) :=
  List.perm_insertionSort _ _

theorem summaryRows_map_category (matched : List Expense) :
    ((summaryRows matched).map (·.category)).Perm
      ((matched.map (·.category)).dedup) := by
  have h := (summaryRows_perm matched).map (·.category)
  rw [List.map_map] at h
  simpa [Function.comp_def, List.map_id] using h

theorem summaryRows_nodup_categories (matched : List Expense) :
    ((summaryRows matched).map (·.category)).Nodup :=
  ((summaryRows_map_category matched).nodup_iff).mpr (List.nodup_dedup _)

theorem summaryRows_mem_categories (matched : List Expense) (c : String) :
    c ∈ (summaryRows matched).map (·.category)
      ↔ c ∈ matched.map (·.category) := by
  rw [(summaryRows_map_category matched).mem_iff]
  exact List.mem_dedup

theorem summaryRows_group (matched : List Expense) (g : SummaryRow)
    (hg : g ∈ summaryRows matched) :
    g.total_amount
        = ((matched.filter (fun r => r.category == g.category)).map (·.amount)).sum
    ∧ g.count = (matched.filter (fun r => r.category == g.category)).length := by
  have h1 := (summaryRows_perm matched).mem_iff.mp hg
  rcases List.mem_map.mp h1 with ⟨c, _, rfl⟩
  exact ⟨rfl, rfl⟩

theorem summaryRows_length (matched : List Expense) :
    (summaryRows matched).length = ((matched.map (·.category)).dedup).length := by
  rw [summaryRows, List.length_insertionSort, List.length_map]

theorem summaryRows_sorted (matched : List Expense) :
    (summaryRows matched).Sorted SumOrd :=
  List.sorted_insertionSort _ _

theorem length_le_one_of_all_eq {l : List String} (hn : l.Nodup) (C : String)
    (hall : ∀ x ∈ l, x = C) : l.length ≤ 1 := by
  cases l with
  | nil => simp
  | cons a t =>
    cases t with
    | nil => simp
    | cons b u =>
      exfalso
      have ha : a = C := hall a (by simp)
      have hb : b = C := hall b (by simp)
      subst ha
      subst hb
      simp [List.nodup_cons] at hn

/-! Facts about the substring check of `add_expense`'s exception handler. -/

theorem subCheck_iff (n : List Char) : ∀ h : List Char,
    subCheck n h = true ↔ n <:+: h
  | [] => by
    simp [subCheck, List.infix_nil, List.isEmpty_iff]
  | c :: t => by
    rw [subCheck, Bool.or_eq_true, subCheck_iff n t, List.infix_cons_iff]
    simp [ List.isPrefixOf_iff_prefix]

theorem dbError_ne_readonlyMsg (e : String) :
    "Database error: " ++ e
      ≠ "Database is in read-only mode. Check file permissions." := by
  intro h
  have h2 : "Database error: ".data ++ e.data
      = ("Database is in read-only mode. Check file permissions." : String).data := by
    rw [← String.data_append, h]
  have hp : "Database error: ".data
      <+: ("Database is in read-only mode. Check file permissions." : String).data :=
    ⟨e.data, h2⟩
  exact absurd hp (by decide)

/-! The identifier invariant maintained by successful adds. -/

theorem runAdds_ids (inputs : List AddInput) :
    ∀ s : Store, (∀ r ∈ s.rows, r.id < s.nextId)
      → ((s.rows.map (·.id)).Sorted (· < ·))
      → (∀ r ∈ (runAdds s inputs).rows, r.id < (runAdds s inputs).nextId)
        ∧ (((runAdds s inputs).rows.map (·.id)).Sorted (· < ·)) := by
  induction inputs with
  | nil => intro s h1 h2; exact ⟨h1, h2⟩
  | cons i rest ih =>
    intro s h1 h2
    rw [runAdds]
    refine ih _ ?_ ?_
    · intro r hr
      simp only [add_expense] at hr ⊢
      rcases List.mem_append.mp hr with h | h
      · exact Nat.lt_succ_of_lt (h1 r h)
      · have : r = ⟨s.nextId, _, i.amount, i.category, i.subcategory, i.note⟩ :=
          List.mem_singleton.mp h
        rw [this]
        exact Nat.lt_succ_self _
    · simp only [add_expense, List.map_append]
      refine List.pairwise_append.mpr ⟨h2, by simp, ?_⟩
      intro x hx y hy
      simp only [List.map_cons, List.map_nil, List.mem_singleton] at hy
      rcases List.mem_map.mp hx with ⟨r, hr, rfl⟩
      rw [hy]
      exact h1 r hr

/-! The claims. -/

/-- C1 (counterexample): the claim fails for a supplied empty-string bound.
With the store holding one row dated `2024-01-01` and the call
`list_expenses(end_date="")`, the row is returned even though its date does
not satisfy `date ≤ ""`, so the result is not "exactly the rows whose stored
date satisfies the inclusive lexical bounds". -/
theorem list_expenses_empty_bound_counterexample :
    (⟨1, "2024-01-01", 5, "Food", "", ""⟩ : Expense)
        ∈ list_expenses ⟨[⟨1, "2024-01-01", 5, "Food", "", ""⟩], 2⟩ none (some "")
      ∧ ¬ textLe "2024-01-01" "" := by decide

/-- C1 (amended): a supplied bound is applied only when it is a nonempty
string (an empty-string bound is treated as absent).  With that reading, for
every store state and every combination of bounds, `list_expenses` returns
exactly the rows whose stored date satisfies the applied inclusive lexical
bounds (`date ≥ start_date` when the start bound is applied, `date ≤
end_date` when the end bound is applied, both when both are, all rows when
neither is), ordered by date descending then id descending. -/
theorem list_expenses_bounds (s : Store) (sd ed : Option String) :
    (list_expenses s sd ed).Perm (s.rows.filter (effDateCheck sd ed))
    ∧ (list_expenses s sd ed).Sorted RowOrd := by
  rw [list_expenses_eq]
  exact ⟨List.perm_insertionSort _ _, List.sorted_insertionSort _ _⟩

/-- C2: `summarize` with no filters returns one row per distinct category
present among the rows, whose `total_amount` is the sum of that category's
amounts and whose `count` is its number of rows, ordered by `total_amount`
descending. -/
theorem summarize_no_filters (s : Store) :
    ((summarize s none none none).map (·.category)).Nodup
    ∧ (∀ c, c ∈ (summarize s none none none).map (·.category)
          ↔ c ∈ s.rows.map (·.category))
    ∧ (∀ g ∈ summarize s none none none,
          g.total_amount
              = ((s.rows.filter (fun r => r.category == g.category)).map
                  (·.amount)).sum
          ∧ g.count
              = (s.rows.filter (fun r => r.category == g.category)).length)
    ∧ (summarize s none none none).Sorted SumOrd := by
  have hfil : s.rows.filter (summarizeFilter none none none) = s.rows := by
    rw [List.filter_eq_self]
    intro a _
    simp [summarizeFilter, truthy]
  have hs : summarize s none none none = summaryRows s.rows := by
    unfold summarize
    rw [hfil]
  rw [hs]
  exact ⟨summaryRows_nodup_categories _,
    fun c => summaryRows_mem_categories _ c,
    fun g hg => summaryRows_group _ g hg,
    summaryRows_sorted _⟩

/-- C3: modelled failures of the underlying database call are returned as
data, never raised: on any failure text `e`, `add_expense` returns a
dictionary with status `"error"` and a message, and it returns the read-only
message exactly when `e` contains the substring `"readonly"`
case-insensitively; `list_expenses` and `summarize` return an error
dictionary with a message; a non-`FileNotFoundError` failure of the category
file read is returned as an inline error document. -/
theorem failures_returned_as_data (s : Store) (amt : ℚ) (c sc n today : String)
    (d sd ed cat : Option String) (e : String) :
    ((add_expense s amt c sc n d today (some e)).2.status = "error")
    ∧ (∃ m, (add_expense s amt c sc n d today (some e)).2 = .error m)
    ∧ ((add_expense s amt c sc n d today (some e)).2
          = .error "Database is in read-only mode. Check file permissions."
        ↔ "readonly".data <:+: lowerData e)
    ∧ (∃ m, (list_expensesApi s sd ed (some e)).2 = .error m)
    ∧ (∃ m, (summarizeApi s sd ed cat (some e)).2 = .error m)
    ∧ (categories (.otherError e)
        = "\x7b\"error\": \"Could not load categories: " ++ e ++ "\"\x7d") := by
  have hadd : (add_expense s amt c sc n d today (some e)).2
      = if readonlyCheck e then
          AddResponse.error "Database is in read-only mode. Check file permissions."
        else
          AddResponse.error ("Database error: " ++ e) := by
    unfold add_expense
    cases hro : readonlyCheck e <;> simp [hro]
  refine ⟨?_, ?_, ?_, ⟨_, rfl⟩, ⟨_, rfl⟩, rfl⟩
  · rw [hadd]
    cases hro : readonlyCheck e <;> simp [hro, AddResponse.status]
  · rw [hadd]
    cases hro : readonlyCheck e <;> simp
  · constructor
    · intro h
      by_cases hro : readonlyCheck e = true
      · unfold readonlyCheck at hro
        exact (subCheck_iff _ _).mp hro
      · rw [hadd, if_neg hro] at h
        injection h with h2
        exact absurd h2 (dbError_ne_readonlyMsg e)
    · intro h
      have hro : readonlyCheck e = true := by
        unfold readonlyCheck
        exact (subCheck_iff _ _).mpr h
      rw [hadd, if_pos hro]

/-- C4: a successful `add_expense` stores the current calendar date `today`
when the date argument is absent, and stores a supplied date string exactly
as given. -/
theorem add_expense_date_default (s : Store) (amt : ℚ)
    (c sc n today dte : String) :
    (add_expense s amt c sc n none today none).1.rows
        = s.rows ++ [⟨s.nextId, today, amt, c, sc, n⟩]
    ∧ (add_expense s amt c sc n (some dte) today none).1.rows
        = s.rows ++ [⟨s.nextId, dte, amt, c, sc, n⟩] :=
  ⟨rfl, rfl⟩

/-- C5: a successful `add_expense` appends exactly one row and leaves every
pre-existing row unchanged; a failed `add_expense` leaves the store
unchanged; `list_expenses` and `summarize` never modify the store. -/
theorem operations_frame (s : Store) (amt : ℚ) (c sc n today : String)
    (d sd ed cat dbE : Option String) (e : String) :
    (∃ r, (add_expense s amt c sc n d today none).1.rows = s.rows ++ [r])
    ∧ ((add_expense s amt c sc n d today (some e)).1 = s)
    ∧ ((list_expensesApi s sd ed dbE).1 = s)
    ∧ ((summarizeApi s sd ed cat dbE).1 = s) := by
  refine ⟨⟨_, rfl⟩, ?_, ?_, ?_⟩
  · cases hro : readonlyCheck e <;> simp [add_expense, hro]
  · cases dbE <;> rfl
  · cases dbE <;> rfl

/-- C6: starting from the initialized store, every sequence of successful
`add_expense` calls yields rows whose identifiers are strictly increasing in
insertion order (hence unique, and every later add receives a larger id than
every earlier one). -/
theorem ids_strictly_increasing (inputs : List AddInput) :
    (((runAdds (init_db none) inputs).rows.map (·.id)).Sorted (· < ·))
    ∧ (((runAdds (init_db none) inputs).rows.map (·.id)).Nodup) := by
  have hrows : (init_db none).rows = [] := rfl
  have h := runAdds_ids inputs (init_db none)
    (by rw [hrows]; intro r hr; simp at hr)
    (by rw [hrows]; simp)
  exact ⟨h.2, h.2.nodup⟩

/-- C7 (counterexample): the claim fails for the empty category string.  With
one stored row of category `"Food"`, `summarize(category="")` returns a row
whose category is `"Food"`, not `""`, so the output is not restricted to rows
"for category C only". -/
theorem summarize_empty_category_counterexample :
    ((summarize ⟨[⟨1, "2024-01-01", 5, "Food", "", ""⟩], 2⟩ none none
        (some "")).map (·.category) = ["Food"])
    ∧ ("Food" : String) ≠ "" := by decide

/-- C7 (amended): for every nonempty category string `C` (an empty-string
category is treated as absent), `summarize(category=C)` returns at most one
row, and any returned row is for category `C` only: its `total_amount` and
`count` aggregate exactly the rows whose category equals `C` and which
satisfy the applied date bounds. -/
theorem summarize_category_filter (s : Store) (sd ed : Option String)
    (C : String) (hC : C ≠ "") :
    (summarize s sd ed (some C)).length ≤ 1
    ∧ ∀ g ∈ summarize s sd ed (some C),
        g.category = C
        ∧ g.total_amount
            = ((s.rows.filter (fun r =>
                effDateCheck sd ed r && (r.category == C))).map (·.amount)).sum
        ∧ g.count
            = (s.rows.filter (fun r =>
                effDateCheck sd ed r && (r.category == C))).length := by
  have hpred : summarizeFilter sd ed (some C)
      = fun r => effDateCheck sd ed r && (r.category == C) := by
    funext r
    rw [summarizeFilter_eq]
    simp [truthy_some_of_ne hC]
  have hs : summarize s sd ed (some C)
      = summaryRows (s.rows.filter (fun r =>
          effDateCheck sd ed r && (r.category == C))) := by
    unfold summarize
    rw [hpred]
  have hcat : ∀ r ∈ s.rows.filter (fun r =>
      effDateCheck sd ed r && (r.category == C)), r.category = C := by
    intro r hr
    have h2 := (List.mem_filter.mp hr).2
    simp at h2
    exact h2.2
  constructor
  · rw [hs, summaryRows_length]
    apply length_le_one_of_all_eq (List.nodup_dedup _) C
    intro x hx
    rcases List.mem_map.mp (List.mem_dedup.mp hx) with ⟨r, hr, rfl⟩
    exact hcat r hr
  · intro g hg
    rw [hs] at hg
    have hfields := summaryRows_group _ g hg
    have hgcat : g.category = C := by
      have hmem : g.category ∈ (summaryRows (s.rows.filter (fun r =>
          effDateCheck sd ed r && (r.category == C)))).map (·.category) :=
        List.mem_map_of_mem _ hg
      rcases List.mem_map.mp ((summaryRows_mem_categories _ _).mp hmem)
        with ⟨r, hr, he⟩
      rw [← he]
      exact hcat r hr
    have hmf : (s.rows.filter (fun r =>
          effDateCheck sd ed r && (r.category == C))).filter
            (fun r => r.category == C)
        = s.rows.filter (fun r => effDateCheck sd ed r && (r.category == C)) := by
      rw [List.filter_eq_self]
      intro a ha
      simp [hcat a ha]
    refine ⟨hgcat, ?_, ?_⟩
    · rw [hfields.1, hgcat, hmf]
    · rw [hfields.2, hgcat, hmf]

/-- C7 (witness): the amended theorem applied to a one-row store with
category `"Food"`. -/
theorem summarize_category_filter_witness :
    (("Food" : String) ≠ "")
    ∧ ((summarize ⟨[⟨1, "2024-01-01", 5, "Food", "", ""⟩], 2⟩ none none
          (some "Food")).length ≤ 1
      ∧ ∀ g ∈ summarize ⟨[⟨1, "2024-01-01", 5, "Food", "", ""⟩], 2⟩ none none
          (some "Food"),
          g.category = "Food"
          ∧ g.total_amount
              = (((⟨[⟨1, "2024-01-01", 5, "Food", "", ""⟩], 2⟩ : Store).rows.filter
                  (fun r => effDateCheck none none r && (r.category == "Food"))).map
                    (·.amount)).sum
          ∧ g.count
              = ((⟨[⟨1, "2024-01-01", 5, "Food", "", ""⟩], 2⟩ : Store).rows.filter
                  (fun r => effDateCheck none none r && (r.category == "Food"))).length) :=
  ⟨by decide,
    summarize_category_filter ⟨[⟨1, "2024-01-01", 5, "Food", "", ""⟩], 2⟩
      none none "Food" (by decide)⟩

/-- C8: when the category file is absent, `categories` returns the JSON
document holding exactly the ten default labels in order under the key
`"categories"`; when the file is present its content is returned verbatim;
any other read error yields an inline JSON-shaped error string rather than an
exception. -/
theorem categories_resource (c e : String) :
    categories (.ok c) = c
    ∧ categories .notFound
        = "\x7b\n  \"categories\": [\n    \"Food & Dining\",\n    \"Transportation\",\n    \"Shopping\",\n    \"Entertainment\",\n    \"Bills & Utilities\",\n    \"Healthcare\",\n    \"Travel\",\n    \"Education\",\n    \"Business\",\n    \"Other\"\n  ]\n\x7d"
    ∧ defaultCategoryLabels
        = ["Food & Dining", "Transportation", "Shopping", "Entertainment",
           "Bills & Utilities", "Healthcare", "Travel", "Education",
           "Business", "Other"]
    ∧ categories (.otherError e)
        = "\x7b\"error\": \"Could not load categories: " ++ e ++ "\"\x7d" :=
  ⟨rfl, rfl, rfl, rfl⟩

/-- C9: in `list_expenses` and `summarize` an empty-string filter argument is
treated as if it were absent, because the code branches on truthiness:
`list_expenses(end_date="")` returns all rows (the unfiltered sorted store),
one empty and one nonempty bound degrades to the one-sided filter, and
`summarize(category="")` applies no category filter. -/
theorem empty_string_filters_ignored (s : Store) (dte : String)
    (sd ed : Option String) :
    list_expenses s none (some "") = List.insertionSort RowOrd s.rows
    ∧ list_expenses s (some "") (some dte) = list_expenses s none (some dte)
    ∧ list_expenses s (some dte) (some "") = list_expenses s (some dte) none
    ∧ list_expenses s (some "") (some "") = List.insertionSort RowOrd s.rows
    ∧ summarize s sd ed (some "") = summarize s sd ed none := by
  refine ⟨?_, ?_, ?_, ?_, ?_⟩
  · rw [list_expenses_eq]
    have hp : effDateCheck none (some "") = fun _ => true := by
      funext r
      simp [effDateCheck, truthy_none_eq, truthy_some_empty]
    rw [hp, List.filter_true]
  · rw [list_expenses_eq, list_expenses_eq]
    have hp : effDateCheck (some "") (some dte) = effDateCheck none (some dte) := by
      funext r
      simp [effDateCheck, truthy_none_eq, truthy_some_empty]
    rw [hp]
  · rw [list_expenses_eq, list_expenses_eq]
    have hp : effDateCheck (some dte) (some "") = effDateCheck (some dte) none := by
      funext r
      simp [effDateCheck, truthy_none_eq, truthy_some_empty]
    rw [hp]
  · rw [list_expenses_eq]
    have hp : effDateCheck (some "") (some "") = fun _ => true := by
      funext r
      simp [effDateCheck, truthy_none_eq, truthy_some_empty]
    rw [hp, List.filter_true]
  · unfold summarize
    have hp : summarizeFilter sd ed (some "") = summarizeFilter sd ed none := by
      funext r
      rw [summarizeFilter_eq, summarizeFilter_eq]
      simp [truthy_none_eq, truthy_some_empty]
    rw [hp]

/-- C10: `init_db` on an existing store deletes every stored row whose
category is exactly `'test'` (not only its own probe row), so re-running
initialization loses user-added rows of category `'test'`. -/
theorem init_db_purges_test_category (s : Store) (r : Expense)
    (hr : r ∈ s.rows) (hcat : r.category = "test") :
    r ∉ (init_db (some s)).rows
    ∧ (init_db (some s)).rows
        = s.rows.filter (fun x => x.category != "test") := by
  have hrows : (init_db (some s)).rows
      = (s.rows ++ [probeRow s.nextId]).filter (fun x => x.category != "test") :=
    rfl
  constructor
  · intro hin
    rw [hrows] at hin
    have h2 := (List.mem_filter.mp hin).2
    rw [hcat] at h2
    simp at h2
  · rw [hrows, List.filter_append]
    have hp : [probeRow s.nextId].filter (fun x => x.category != "test") = [] :=
      rfl
    rw [hp, List.append_nil]

/-- C10 (witness): the theorem applied to a store holding one user row of
category `'test'`. -/
theorem init_db_purges_test_category_witness :
    ((⟨1, "2024-01-01", 3, "test", "", ""⟩ : Expense)
        ∈ (⟨[⟨1, "2024-01-01", 3, "test", "", ""⟩], 2⟩ : Store).rows
      ∧ (⟨1, "2024-01-01", 3, "test", "", ""⟩ : Expense).category = "test")
    ∧ ((⟨1, "2024-01-01", 3, "test", "", ""⟩ : Expense)
        ∉ (init_db (some ⟨[⟨1, "2024-01-01", 3, "test", "", ""⟩], 2⟩)).rows
      ∧ (init_db (some ⟨[⟨1, "2024-01-01", 3, "test", "", ""⟩], 2⟩)).rows
          = (⟨[⟨1, "2024-01-01", 3, "test", "", ""⟩], 2⟩ : Store).rows.filter
              (fun x => x.category != "test")) :=
  ⟨⟨by decide, rfl⟩,
    init_db_purges_test_category ⟨[⟨1, "2024-01-01", 3, "test", "", ""⟩], 2⟩
      ⟨1, "2024-01-01", 3, "test", "", ""⟩ (by decide) rfl⟩

end ExpenseTracker
